import Mathlib

/-!
Shallow embedding of the 6502 subset emulator (`emu.c`).

Conventions of the embedding:
* C machine integers become `Nat` with explicit reductions: a `uint8_t`
  parameter or store site carries `% 256`, a `uint16_t` one carries
  `% 65536`.  The 64 kB memory array `m` becomes a function `Nat → Nat`;
  a cell holds a `uint8_t`, which `r8` models by reducing the looked-up
  value modulo 256.
* The C expression `m[addr+1]` inside `r16`/`w16` computes the index
  `addr+1` in `int` arithmetic (no 16-bit wraparound), so for
  `addr = 0xFFFF` it indexes one past the end of the 65536-byte array —
  undefined behaviour.  The embedding makes this fallibility explicit:
  `r16`/`w16` return `none` exactly when the high-byte index would fall
  outside the array.
* The emulator's observable output (characters sent to the memory-mapped
  device at 0xC000 via `putchar`) is modelled as a list of byte values
  `out` accumulated in program order.
-/

namespace Emu

/-- Processor and memory state: the globals `pc, a, x, y, s, p, m` of
`emu.c` plus the accumulated output of the 0xC000 device. -/
@[ext] structure CPU where
  pc : Nat
  a : Nat
  x : Nat
  y : Nat
  s : Nat
  p : Nat
  m : Nat → Nat
  out : List Nat

/-- Flag bit positions, from `enum { CF=0,ZF,IF,DF,BF,XX,VF,NF }`. -/
def CF : Nat := 0

/-- Zero flag bit position. -/
def ZF : Nat := 1

/-- Negative flag bit position. -/
def NF : Nat := 7

/-- `r8`: `return m[addr];` — the `uint16_t` parameter reduces the
address modulo 65536 and the `uint8_t` cell content is below 256. -/
def r8 (m : Nat → Nat) (addr : Nat) : Nat :=
  m (addr % 65536) % 256

/-- `r16`: `return m[addr] + ((uint16_t)m[addr+1] << 8);` — the index
`addr+1` is computed in `int` arithmetic, so when `addr % 65536 = 0xFFFF`
the access `m[addr+1]` runs past the end of the array; the embedding
returns `none` for that undefined out-of-bounds read. -/
def r16 (m : Nat → Nat) (addr : Nat) : Option Nat :=
  if addr % 65536 + 1 < 65536 then
    some (m (addr % 65536) % 256 + 256 * (m (addr % 65536 + 1) % 256))
  else none

/-- `w8`: writes to address 0xC000 are intercepted by the output device
(`putchar(val)`), every other address stores the byte into memory. -/
def w8 (c : CPU) (addr val : Nat) : CPU :=
  if addr % 65536 = 0xC000 then
    { c with out := c.out ++ [val % 256] }
  else
    { c with m := Function.update c.m (addr % 65536) (val % 256) }

/-- `w16`: `m[addr] = val & 0xFF; m[addr + 1] = val >> 8;` — both bytes
are stored directly into the array (not routed through `w8`, hence no
0xC000 interception), and the index `addr+1` is again computed in `int`
arithmetic, so `addr % 65536 = 0xFFFF` runs past the end of the array
(`none`). -/
def w16 (m : Nat → Nat) (addr val : Nat) : Option (Nat → Nat) :=
  if addr % 65536 + 1 < 65536 then
    some (Function.update
            (Function.update m (addr % 65536) (val % 256))
            (addr % 65536 + 1) (val % 65536 / 256))
  else none

/-- `set_z`: `p = p | (1 << ZF);` -/
def set_z (p : Nat) : Nat := p ||| (1 <<< ZF)

/-- `clr_z`: `p = p & ~(1 << ZF);` (the complement is taken within the
8-bit width of `p`). -/
def clr_z (p : Nat) : Nat := p &&& (255 ^^^ (1 <<< ZF))

/-- `set_n`: `p = p | (1 << NF);` -/
def set_n (p : Nat) : Nat := p ||| (1 <<< NF)

/-- `clr_n`: `p = p & ~(1 << NF);` -/
def clr_n (p : Nat) : Nat := p &&& (255 ^^^ (1 <<< NF))

/-- `get_c`: returns 1 when the carry bit of `p` is set, 0 otherwise. -/
def get_c (p : Nat) : Nat :=
  if p &&& (1 <<< CF) ≠ 0 then 1 else 0

/-- `set_c`: `p = p | (1 << CF);` -/
def set_c (p : Nat) : Nat := p ||| (1 <<< CF)

/-- `clr_c`: `p = p & ~(1 << CF);` -/
def clr_c (p : Nat) : Nat := p &&& (255 ^^^ (1 <<< CF))

/-- Carry bit of the flags register (bit 0). -/
def carryFlag (p : Nat) : Bool := p.testBit 0

/-- Zero bit of the flags register (bit 1). -/
def zeroFlag (p : Nat) : Bool := p.testBit 1

/-- Negative bit of the flags register (bit 7). -/
def negFlag (p : Nat) : Bool := p.testBit 7

/-- Zero-flag update shared by the LDA and ADC handlers:
`if (a == 0) set_z(); else clr_z();`. -/
def updZ (p a : Nat) : Nat :=
  if a = 0 then set_z p else clr_z p

/-- Negative-flag update shared by the LDA and ADC handlers:
`if ((a & 0x80) != 0) set_n(); else clr_n();`. -/
def updN (p a : Nat) : Nat :=
  if a &&& 0x80 ≠ 0 then set_n p else clr_n p

/-- Combined Z-then-N recomputation from the new accumulator value. -/
def updZN (p a : Nat) : Nat := updN (updZ p a) a

/-- Reinterpretation `(int8_t)param8` of a raw operand byte as a
two's-complement signed 8-bit integer. -/
def toSigned8 (v : Nat) : Int :=
  if v % 256 < 128 then (v % 256 : Nat) else (v % 256 : Nat) - 256

/-- Flag update of the CMP handler, the three sequential `if`s
`if (a == param8) { set_z(); set_c(); }`,
`if (a < param8) { clr_z(); clr_c(); }`,
`if (a > param8) { clr_z(); set_c(); }` applied to `p` in order. -/
def cmpFlags (p a v : Nat) : Nat :=
  let p1 := if a = v then set_c (set_z p) else p
  let p2 := if a < v then clr_c (clr_z p1) else p1
  if v < a then set_c (clr_z p2) else p2

/-- Result of one trip through the `while(1)` dispatch loop. -/
inductive Outcome where
  /-- Execution continues at the updated state. -/
  | next (c : CPU)
  /-- BRK: `exit(0)` — the emulator halts with exit code 0. -/
  | brk (c : CPU)
  /-- Illegal opcode: `printf("Unknown opcode %02x at address %04x\x5cn", opcode, pc)`
  followed by `exit(1)`; the two reported values and the otherwise
  untouched state are carried. -/
  | illegal (opcode addr : Nat) (c : CPU)

/-- Process exit code produced by an outcome, when it halts. -/
def exitCodeOf : Outcome → Option Nat
  | .next _ => none
  | .brk _ => some 0
  | .illegal _ _ _ => some 1

/-- Body of the `switch (opcode)` statement of the dispatch loop. -/
def exec (c : CPU) (opcode : Nat) : Option Outcome :=
  if opcode = 0x00 then
    some (.brk c)
  else if opcode = 0xEA then
    some (.next { c with pc := (c.pc + 1) % 65536 })
  else if opcode = 0x18 then
    some (.next { c with p := clr_c c.p, pc := (c.pc + 1) % 65536 })
  else if opcode = 0xA9 then
    some (.next { c with
      a := r8 c.m (c.pc + 1),
      p := updZN c.p (r8 c.m (c.pc + 1)),
      pc := (c.pc + 2) % 65536 })
  else if opcode = 0x8D then
    match r16 c.m (c.pc + 1) with
    | none => none
    | some addr => some (.next { w8 c addr c.a with pc := (c.pc + 3) % 65536 })
  else if opcode = 0x69 then
    some (.next { c with
      a := (c.a + r8 c.m (c.pc + 1) + get_c c.p) % 256,
      p := updZN c.p ((c.a + r8 c.m (c.pc + 1) + get_c c.p) % 256),
      pc := (c.pc + 2) % 65536 })
  else if opcode = 0xC9 then
    some (.next { c with
      p := cmpFlags c.p c.a (r8 c.m (c.pc + 1)),
      pc := (c.pc + 2) % 65536 })
  else if opcode = 0x90 then
    if get_c c.p = 1 then
      some (.next { c with pc := (c.pc + 2) % 65536 })
    else
      some (.next { c with
        pc := (((c.pc : Int) + 2 + toSigned8 (r8 c.m (c.pc + 1))) % 65536).toNat })
  else
    some (.illegal opcode c.pc c)

/-- One iteration of the dispatch loop: fetch the opcode at `pc` and run
the `switch` on it. -/
def step (c : CPU) : Option Outcome :=
  exec c (r8 c.m c.pc)

/-- Fuel-bounded iteration of the dispatch loop; `some (.next c)` means
the fuel ran out while still running, outer `none` means an undefined
out-of-bounds access occurred. -/
def run : Nat → CPU → Option Outcome
  | 0, c => some (.next c)
  | fuel + 1, c =>
    match step c with
    | some (.next c2) => run fuel c2
    | r => r

/-- The part of `main` before the loop: the image is already in memory,
the reset vector at 0xFFFC/0xFFFD is set to 0, `pc` is loaded from the
reset vector and all registers are cleared. -/
def boot (img : Nat → Nat) : Option CPU :=
  match w16 img 0xFFFC 0 with
  | none => none
  | some m2 =>
    match r16 m2 0xFFFC with
    | none => none
    | some pc0 =>
      some { pc := pc0, a := 0, x := 0, y := 0, s := 0, p := 0, m := m2, out := [] }

/-- Observable result of a finished emulation: process exit code and the
characters written to the 0xC000 device, in order. -/
def report : Option Outcome → Option (Nat × List Nat)
  | some (.brk c) => some (0, c.out)
  | some (.illegal _ _ c) => some (1, c.out)
  | _ => none

/-- Boot on a memory image and run the dispatch loop. -/
def emulate (fuel : Nat) (img : Nat → Nat) : Option (Nat × List Nat) :=
  report ((boot img).bind (run fuel))

/-- Memory image of the demo program, assembled at address 0:
`CLC; LDA #0x41; loop: STA 0xC000; ADC #0x01; CMP #0x5B; BCC loop; BRK`
with the rest of memory zero. -/
def prog1 : Nat → Nat := fun addr =>
  if addr = 0 then 0x18
  else if addr = 1 then 0xA9
  else if addr = 2 then 0x41
  else if addr = 3 then 0x8D
  else if addr = 4 then 0x00
  else if addr = 5 then 0xC0
  else if addr = 6 then 0x69
  else if addr = 7 then 0x01
  else if addr = 8 then 0xC9
  else if addr = 9 then 0x5B
  else if addr = 10 then 0x90
  else if addr = 11 then 0xF7
  else if addr = 12 then 0x00
  else 0

end Emu

namespace Emu

theorem zeroFlag_set_z (p : Nat) : zeroFlag (set_z p) = true := by
  show (p ||| 2).testBit 1 = true
  rw [Nat.testBit_or, (by decide : Nat.testBit 2 1 = true), Bool.or_true]

theorem zeroFlag_clr_z (p : Nat) : zeroFlag (clr_z p) = false := by
  show (p &&& 253).testBit 1 = false
  rw [Nat.testBit_and, (by decide : Nat.testBit 253 1 = false), Bool.and_false]

theorem zeroFlag_set_n (p : Nat) : zeroFlag (set_n p) = zeroFlag p := by
  show (p ||| 128).testBit 1 = p.testBit 1
  rw [Nat.testBit_or, (by decide : Nat.testBit 128 1 = false), Bool.or_false]

theorem zeroFlag_clr_n (p : Nat) : zeroFlag (clr_n p) = zeroFlag p := by
  show (p &&& 127).testBit 1 = p.testBit 1
  rw [Nat.testBit_and, (by decide : Nat.testBit 127 1 = true), Bool.and_true]

theorem zeroFlag_set_c (p : Nat) : zeroFlag (set_c p) = zeroFlag p := by
  show (p ||| 1).testBit 1 = p.testBit 1
  rw [Nat.testBit_or, (by decide : Nat.testBit 1 1 = false), Bool.or_false]

theorem zeroFlag_clr_c (p : Nat) : zeroFlag (clr_c p) = zeroFlag p := by
  show (p &&& 254).testBit 1 = p.testBit 1
  rw [Nat.testBit_and, (by decide : Nat.testBit 254 1 = true), Bool.and_true]

theorem carryFlag_set_c (p : Nat) : carryFlag (set_c p) = true := by
  show (p ||| 1).testBit 0 = true
  rw [Nat.testBit_or, (by decide : Nat.testBit 1 0 = true), Bool.or_true]

theorem carryFlag_clr_c (p : Nat) : carryFlag (clr_c p) = false := by
  show (p &&& 254).testBit 0 = false
  rw [Nat.testBit_and, (by decide : Nat.testBit 254 0 = false), Bool.and_false]

theorem carryFlag_set_z (p : Nat) : carryFlag (set_z p) = carryFlag p := by
  show (p ||| 2).testBit 0 = p.testBit 0
  rw [Nat.testBit_or, (by decide : Nat.testBit 2 0 = false), Bool.or_false]

theorem carryFlag_clr_z (p : Nat) : carryFlag (clr_z p) = carryFlag p := by
  show (p &&& 253).testBit 0 = p.testBit 0
  rw [Nat.testBit_and, (by decide : Nat.testBit 253 0 = true), Bool.and_true]

theorem carryFlag_set_n (p : Nat) : carryFlag (set_n p) = carryFlag p := by
  show (p ||| 128).testBit 0 = p.testBit 0
  rw [Nat.testBit_or, (by decide : Nat.testBit 128 0 = false), Bool.or_false]

theorem carryFlag_clr_n (p : Nat) : carryFlag (clr_n p) = carryFlag p := by
  show (p &&& 127).testBit 0 = p.testBit 0
  rw [Nat.testBit_and, (by decide : Nat.testBit 127 0 = true), Bool.and_true]

theorem negFlag_set_n (p : Nat) : negFlag (set_n p) = true := by
  show (p ||| 128).testBit 7 = true
  rw [Nat.testBit_or, (by decide : Nat.testBit 128 7 = true), Bool.or_true]

theorem negFlag_clr_n (p : Nat) : negFlag (clr_n p) = false := by
  show (p &&& 127).testBit 7 = false
  rw [Nat.testBit_and, (by decide : Nat.testBit 127 7 = false), Bool.and_false]

theorem negFlag_set_z (p : Nat) : negFlag (set_z p) = negFlag p := by
  show (p ||| 2).testBit 7 = p.testBit 7
  rw [Nat.testBit_or, (by decide : Nat.testBit 2 7 = false), Bool.or_false]

theorem negFlag_clr_z (p : Nat) : negFlag (clr_z p) = negFlag p := by
  show (p &&& 253).testBit 7 = p.testBit 7
  rw [Nat.testBit_and, (by decide : Nat.testBit 253 7 = true), Bool.and_true]

theorem negFlag_set_c (p : Nat) : negFlag (set_c p) = negFlag p := by
  show (p ||| 1).testBit 7 = p.testBit 7
  rw [Nat.testBit_or, (by decide : Nat.testBit 1 7 = false), Bool.or_false]

theorem negFlag_clr_c (p : Nat) : negFlag (clr_c p) = negFlag p := by
  show (p &&& 254).testBit 7 = p.testBit 7
  rw [Nat.testBit_and, (by decide : Nat.testBit 254 7 = true), Bool.and_true]

theorem and_128_eq_testBit (a : Nat) : a &&& 128 ≠ 0 ↔ a.testBit 7 = true := by
  constructor
  · intro h
    obtain ⟨i, hi⟩ := Nat.ne_zero_implies_bit_true h
    rw [Nat.testBit_and] at hi
    have h128 : Nat.testBit 128 i = true := (Bool.and_eq_true_iff.mp hi).2
    have hii : i = 7 := by
      by_contra hne
      rw [(by norm_num : (128 : Nat) = 2 ^ 7),
        Nat.testBit_two_pow_of_ne (fun h7 => hne h7.symm)] at h128
      exact Bool.false_ne_true h128
    subst hii
    exact (Bool.and_eq_true_iff.mp hi).1
  · intro h hz
    have hb : (a &&& 128).testBit 7 = false := by
      rw [hz]; exact Nat.zero_testBit 7
    rw [Nat.testBit_and, h, (by decide : Nat.testBit 128 7 = true), Bool.and_true] at hb
    exact Bool.false_ne_true hb.symm

theorem zeroFlag_updZN (p a : Nat) : zeroFlag (updZN p a) = decide (a = 0) := by
  unfold updZN updN updZ
  split_ifs with hn hz hz <;>
    simp [zeroFlag_set_n, zeroFlag_clr_n, zeroFlag_set_z, zeroFlag_clr_z, *]

theorem negFlag_updZN (p a : Nat) : negFlag (updZN p a) = a.testBit 7 := by
  unfold updZN updN updZ
  split_ifs with hn hz hz
  · rw [negFlag_set_n, ((and_128_eq_testBit a).mp hn).symm]
  · rw [negFlag_set_n, ((and_128_eq_testBit a).mp hn).symm]
  · rw [negFlag_clr_n]
    cases hb : a.testBit 7
    · rfl
    · exact absurd ((and_128_eq_testBit a).mpr hb) hn
  · rw [negFlag_clr_n]
    cases hb : a.testBit 7
    · rfl
    · exact absurd ((and_128_eq_testBit a).mpr hb) hn

theorem carryFlag_updZN (p a : Nat) : carryFlag (updZN p a) = carryFlag p := by
  unfold updZN updN updZ
  split_ifs <;>
    simp [carryFlag_set_n, carryFlag_clr_n, carryFlag_set_z, carryFlag_clr_z]

theorem get_c_eq (p : Nat) : get_c p = if carryFlag p then 1 else 0 := by
  unfold get_c carryFlag
  rw [(by rfl : (1 <<< CF : Nat) = 1), Nat.and_one_is_mod, Nat.testBit_zero]
  rcases Nat.mod_two_eq_zero_or_one p with h | h <;> simp [h]

/-- C1: the demo program writes exactly the 26 characters 'A'..'Z' to
the output device, in order, and halts via BRK with exit code 0. -/
theorem C1_alphabet :
    emulate 200 prog1 =
      some (0,
        [0x41, 0x42, 0x43, 0x44, 0x45, 0x46, 0x47, 0x48, 0x49, 0x4A,
         0x4B, 0x4C, 0x4D, 0x4E, 0x4F, 0x50, 0x51, 0x52, 0x53, 0x54,
         0x55, 0x56, 0x57, 0x58, 0x59, 0x5A]) := by
  decide

/-- C8: executing LDA #v (opcode 0xA9) sets the accumulator to the
operand byte v, sets the Zero bit iff v = 0, sets the Negative bit iff
bit 7 of v is set, and advances pc by 2 (pc is a 16-bit register, so the
advance is modulo 65536). -/
theorem C8_lda_immediate (c : CPU) (hop : r8 c.m c.pc = 0xA9) :
    step c = some (.next { c with
        a := r8 c.m (c.pc + 1),
        p := updZN c.p (r8 c.m (c.pc + 1)),
        pc := (c.pc + 2) % 65536 }) ∧
    (zeroFlag (updZN c.p (r8 c.m (c.pc + 1))) = true ↔ r8 c.m (c.pc + 1) = 0) ∧
    (negFlag (updZN c.p (r8 c.m (c.pc + 1))) = true ↔
      (r8 c.m (c.pc + 1)).testBit 7 = true) := by
  refine ⟨?_, ?_, ?_⟩
  · unfold step
    rw [hop]
    rfl
  · rw [zeroFlag_updZN]
    simp
  · rw [negFlag_updZN]

/-- Concrete state exercising LDA #0x80 at pc = 0. -/
def cLDA : CPU :=
  { pc := 0, a := 0, x := 0, y := 0, s := 0, p := 0,
    m := fun addr => if addr = 0 then 0xA9 else if addr = 1 then 0x80 else 0,
    out := [] }

theorem C8_lda_immediate_witness :
    step cLDA = some (.next { cLDA with
        a := r8 cLDA.m (cLDA.pc + 1),
        p := updZN cLDA.p (r8 cLDA.m (cLDA.pc + 1)),
        pc := (cLDA.pc + 2) % 65536 }) ∧
    (zeroFlag (updZN cLDA.p (r8 cLDA.m (cLDA.pc + 1))) = true ↔
      r8 cLDA.m (cLDA.pc + 1) = 0) ∧
    (negFlag (updZN cLDA.p (r8 cLDA.m (cLDA.pc + 1))) = true ↔
      (r8 cLDA.m (cLDA.pc + 1)).testBit 7 = true) :=
  C8_lda_immediate cLDA rfl

/-- C2 counterexample: at addr = 0xFFFF, `r16` performs the undefined
out-of-bounds read `m[0x10000]` (modelled as `none`) instead of wrapping
the high-byte address to 0 as the claim states: on the all-zero memory
the claimed value would be `some (r8 m 0xFFFF + 256 * r8 m 0)`. -/
theorem C2_counterexample :
    r16 (fun _ => 0) 0xFFFF ≠
      some (r8 (fun _ => 0) 0xFFFF + 256 * r8 (fun _ => 0) 0) := by
  decide

/-- C2 (amended): for every address addr < 0xFFFF, `r16 addr` returns
`read8(addr) + 256 * read8(addr+1)`; at addr = 0xFFFF the code instead
reads one byte past the end of the 65536-byte array (undefined
behaviour) — it does not wrap the high-byte address to 0. -/
theorem C2_read16_le (m : Nat → Nat) (addr : Nat) (h : addr < 0xFFFF) :
    r16 m addr = some (r8 m addr + 256 * r8 m (addr + 1)) := by
  unfold r16 r8
  have h1 : addr % 65536 = addr := Nat.mod_eq_of_lt (by omega)
  have h2 : (addr + 1) % 65536 = addr + 1 := Nat.mod_eq_of_lt (by omega)
  rw [h1, h2, if_pos (by omega)]

theorem C2_read16_le_witness :
    0x1234 < 0xFFFF ∧
      r16 (fun addr => addr) 0x1234 =
        some (r8 (fun addr => addr) 0x1234 + 256 * r8 (fun addr => addr) (0x1234 + 1)) :=
  ⟨by decide, C2_read16_le (fun addr => addr) 0x1234 (by decide)⟩

theorem cmpFlags_of_eq (p a v : Nat) (h : a = v) :
    cmpFlags p a v = set_c (set_z p) := by
  unfold cmpFlags
  split_ifs <;> first | rfl | omega

theorem cmpFlags_of_lt (p a v : Nat) (h : a < v) :
    cmpFlags p a v = clr_c (clr_z p) := by
  unfold cmpFlags
  split_ifs <;> first | rfl | omega

theorem cmpFlags_of_gt (p a v : Nat) (h : v < a) :
    cmpFlags p a v = set_c (clr_z p) := by
  unfold cmpFlags
  split_ifs <;> first | rfl | omega

theorem toSigned8_spec (v : Nat) (hv : v < 256) :
    -128 ≤ toSigned8 v ∧ toSigned8 v < 128 ∧ toSigned8 v % 256 = (v : Int) % 256 := by
  unfold toSigned8
  have h : v % 256 = v := Nat.mod_eq_of_lt hv
  rw [h]
  split_ifs with h1 <;> refine ⟨by omega, by omega, by omega⟩

/-- C4: executing ADC #v (opcode 0x69) sets the accumulator to
(a + v + carry-bit) mod 256, sets Zero iff the new accumulator is 0 and
Negative iff its bit 7 is set, leaves the Carry bit unchanged, and
advances the 16-bit pc by 2. -/
theorem C4_adc_immediate (c : CPU) (hop : r8 c.m c.pc = 0x69) :
    step c = some (.next { c with
        a := (c.a + r8 c.m (c.pc + 1) + get_c c.p) % 256,
        p := updZN c.p ((c.a + r8 c.m (c.pc + 1) + get_c c.p) % 256),
        pc := (c.pc + 2) % 65536 }) ∧
    get_c c.p = (if carryFlag c.p then 1 else 0) ∧
    (zeroFlag (updZN c.p ((c.a + r8 c.m (c.pc + 1) + get_c c.p) % 256)) = true ↔
      (c.a + r8 c.m (c.pc + 1) + get_c c.p) % 256 = 0) ∧
    (negFlag (updZN c.p ((c.a + r8 c.m (c.pc + 1) + get_c c.p) % 256)) = true ↔
      ((c.a + r8 c.m (c.pc + 1) + get_c c.p) % 256).testBit 7 = true) ∧
    carryFlag (updZN c.p ((c.a + r8 c.m (c.pc + 1) + get_c c.p) % 256)) =
      carryFlag c.p := by
  refine ⟨?_, get_c_eq c.p, ?_, ?_, carryFlag_updZN _ _⟩
  · unfold step
    rw [hop]
    rfl
  · rw [zeroFlag_updZN]
    simp
  · rw [negFlag_updZN]

/-- Concrete state for ADC #0x01 with a = 0xFF and carry clear, the
state reached by `LDA #0xFF; CLC`: the sum wraps to 0x00 with Zero set
and Negative clear. -/
def cADC : CPU :=
  { pc := 0, a := 0xFF, x := 0, y := 0, s := 0, p := 0,
    m := fun addr => if addr = 0 then 0x69 else if addr = 1 then 0x01 else 0,
    out := [] }

theorem C4_adc_immediate_witness :
    (step cADC = some (.next { cADC with
        a := (cADC.a + r8 cADC.m (cADC.pc + 1) + get_c cADC.p) % 256,
        p := updZN cADC.p ((cADC.a + r8 cADC.m (cADC.pc + 1) + get_c cADC.p) % 256),
        pc := (cADC.pc + 2) % 65536 }) ∧
      get_c cADC.p = (if carryFlag cADC.p then 1 else 0) ∧
      (zeroFlag (updZN cADC.p ((cADC.a + r8 cADC.m (cADC.pc + 1) + get_c cADC.p) % 256)) = true ↔
        (cADC.a + r8 cADC.m (cADC.pc + 1) + get_c cADC.p) % 256 = 0) ∧
      (negFlag (updZN cADC.p ((cADC.a + r8 cADC.m (cADC.pc + 1) + get_c cADC.p) % 256)) = true ↔
        ((cADC.a + r8 cADC.m (cADC.pc + 1) + get_c cADC.p) % 256).testBit 7 = true) ∧
      carryFlag (updZN cADC.p ((cADC.a + r8 cADC.m (cADC.pc + 1) + get_c cADC.p) % 256)) =
        carryFlag cADC.p) ∧
    (cADC.a + r8 cADC.m (cADC.pc + 1) + get_c cADC.p) % 256 = 0 :=
  ⟨C4_adc_immediate cADC rfl, by decide⟩

/-- C5: executing CMP #v (opcode 0xC9) leaves the accumulator unchanged
and sets the flags by trichotomy: equal sets Zero and Carry, a < v
clears both, a > v clears Zero and sets Carry; the Negative bit is not
recomputed, and the 16-bit pc advances by 2. -/
theorem C5_cmp_immediate (c : CPU) (hop : r8 c.m c.pc = 0xC9) :
    step c = some (.next { c with
        p := cmpFlags c.p c.a (r8 c.m (c.pc + 1)),
        pc := (c.pc + 2) % 65536 }) ∧
    (c.a = r8 c.m (c.pc + 1) →
      zeroFlag (cmpFlags c.p c.a (r8 c.m (c.pc + 1))) = true ∧
      carryFlag (cmpFlags c.p c.a (r8 c.m (c.pc + 1))) = true) ∧
    (c.a < r8 c.m (c.pc + 1) →
      zeroFlag (cmpFlags c.p c.a (r8 c.m (c.pc + 1))) = false ∧
      carryFlag (cmpFlags c.p c.a (r8 c.m (c.pc + 1))) = false) ∧
    (r8 c.m (c.pc + 1) < c.a →
      zeroFlag (cmpFlags c.p c.a (r8 c.m (c.pc + 1))) = false ∧
      carryFlag (cmpFlags c.p c.a (r8 c.m (c.pc + 1))) = true) ∧
    negFlag (cmpFlags c.p c.a (r8 c.m (c.pc + 1))) = negFlag c.p := by
  refine ⟨?_, ?_, ?_, ?_, ?_⟩
  · unfold step
    rw [hop]
    rfl
  · intro h
    rw [cmpFlags_of_eq _ _ _ h, zeroFlag_set_c, zeroFlag_set_z,
      carryFlag_set_c]
    exact ⟨rfl, rfl⟩
  · intro h
    rw [cmpFlags_of_lt _ _ _ h, zeroFlag_clr_c, zeroFlag_clr_z,
      carryFlag_clr_c]
    exact ⟨rfl, rfl⟩
  · intro h
    rw [cmpFlags_of_gt _ _ _ h, zeroFlag_set_c, zeroFlag_clr_z,
      carryFlag_set_c]
    exact ⟨rfl, rfl⟩
  · rcases Nat.lt_trichotomy c.a (r8 c.m (c.pc + 1)) with h | h | h
    · rw [cmpFlags_of_lt _ _ _ h, negFlag_clr_c, negFlag_clr_z]
    · rw [cmpFlags_of_eq _ _ _ h, negFlag_set_c, negFlag_set_z]
    · rw [cmpFlags_of_gt _ _ _ h, negFlag_set_c, negFlag_clr_z]

/-- Concrete state for CMP #0x41 with a = 0x41 (the equality case, as
after `LDA #0x41`). -/
def cCMP : CPU :=
  { pc := 0, a := 0x41, x := 0, y := 0, s := 0, p := 0,
    m := fun addr => if addr = 0 then 0xC9 else if addr = 1 then 0x41 else 0,
    out := [] }

theorem C5_cmp_immediate_witness :
    step cCMP = some (.next { cCMP with
        p := cmpFlags cCMP.p cCMP.a (r8 cCMP.m (cCMP.pc + 1)),
        pc := (cCMP.pc + 2) % 65536 }) ∧
    (zeroFlag (cmpFlags cCMP.p cCMP.a (r8 cCMP.m (cCMP.pc + 1))) = true ∧
      carryFlag (cmpFlags cCMP.p cCMP.a (r8 cCMP.m (cCMP.pc + 1))) = true) :=
  ⟨(C5_cmp_immediate cCMP rfl).1,
    (C5_cmp_immediate cCMP rfl).2.1 (by decide)⟩

/-- C6: with pc at a BCC opcode (0x90): if Carry is set the new pc is
pc + 2; if Carry is clear the new pc is pc + 2 + signed(b), where
signed(b) is the operand byte reinterpreted as a two's-complement 8-bit
integer in -128..127 (pc arithmetic is 16-bit, modulo 65536). -/
theorem C6_bcc_relative (c : CPU) (hop : r8 c.m c.pc = 0x90) :
    (carryFlag c.p = true →
      step c = some (.next { c with pc := (c.pc + 2) % 65536 })) ∧
    (carryFlag c.p = false →
      step c = some (.next { c with
        pc := (((c.pc : Int) + 2 + toSigned8 (r8 c.m (c.pc + 1))) % 65536).toNat }) ∧
      -128 ≤ toSigned8 (r8 c.m (c.pc + 1)) ∧
      toSigned8 (r8 c.m (c.pc + 1)) < 128 ∧
      toSigned8 (r8 c.m (c.pc + 1)) % 256 = (r8 c.m (c.pc + 1) : Int) % 256) := by
  constructor
  · intro hc
    have hg : get_c c.p = 1 := by rw [get_c_eq, hc]; rfl
    unfold step
    rw [hop]
    show (if get_c c.p = 1 then
            some (Outcome.next { c with pc := (c.pc + 2) % 65536 })
          else
            some (Outcome.next { c with
              pc := (((c.pc : Int) + 2 + toSigned8 (r8 c.m (c.pc + 1))) % 65536).toNat })) =
        some (Outcome.next { c with pc := (c.pc + 2) % 65536 })
    rw [if_pos hg]
  · intro hc
    have hg : get_c c.p = 0 := by rw [get_c_eq, hc]; rfl
    have hv : r8 c.m (c.pc + 1) < 256 := Nat.mod_lt _ (by omega)
    refine ⟨?_, (toSigned8_spec _ hv).1, (toSigned8_spec _ hv).2.1,
      (toSigned8_spec _ hv).2.2⟩
    unfold step
    rw [hop]
    show (if get_c c.p = 1 then
            some (Outcome.next { c with pc := (c.pc + 2) % 65536 })
          else
            some (Outcome.next { c with
              pc := (((c.pc : Int) + 2 + toSigned8 (r8 c.m (c.pc + 1))) % 65536).toNat })) =
        some (Outcome.next { c with
          pc := (((c.pc : Int) + 2 + toSigned8 (r8 c.m (c.pc + 1))) % 65536).toNat })
    rw [if_neg (by rw [hg]; decide)]

/-- Concrete BCC states at pc = 0x0010 with offset byte 0xF7 (-9); the
flags value is the parameter, 1 for carry set and 0 for carry clear. -/
def cBCC (pv : Nat) : CPU :=
  { pc := 0x0010, a := 0, x := 0, y := 0, s := 0, p := pv,
    m := fun addr => if addr = 0x0010 then 0x90 else if addr = 0x0011 then 0xF7 else 0,
    out := [] }

theorem C6_bcc_relative_witness :
    step (cBCC 1) = some (.next { cBCC 1 with pc := ((cBCC 1).pc + 2) % 65536 }) ∧
    step (cBCC 0) = some (.next { cBCC 0 with
      pc := ((((cBCC 0).pc : Int) + 2 +
        toSigned8 (r8 (cBCC 0).m ((cBCC 0).pc + 1))) % 65536).toNat }) :=
  ⟨(C6_bcc_relative (cBCC 1) rfl).1 (by decide),
    ((C6_bcc_relative (cBCC 0) rfl).2 (by decide)).1⟩

/-- State with an STA opcode at pc = 0xFFFE: the little-endian operand
fetch `r16(pc+1)` starts at address 0xFFFF, whose high-byte read runs
past the end of the 65536-byte memory array. -/
def cexSTA : CPU :=
  { pc := 0xFFFE, a := 0, x := 0, y := 0, s := 0, p := 0,
    m := fun _ => 0x8D, out := [] }

/-- C7 counterexample: at pc = 0xFFFE the STA handler does not call
write8 and advance pc by 3 as the claim states for every state — the
operand fetch is an undefined out-of-bounds read (`none`). -/
theorem C7_counterexample :
    r8 cexSTA.m cexSTA.pc = 0x8D ∧ step cexSTA = none :=
  ⟨rfl, rfl⟩

/-- C7 (amended): for every state whose STA operand fetch is in bounds
(`r16` succeeds, i.e. pc ≠ 0xFFFE), STA (opcode 0x8D) calls write8 on
the little-endian operand address with the accumulator, leaves flags and
accumulator unchanged and advances the 16-bit pc by 3; when the operand
address is 0xC000 the byte in memory at 0xC000 is not mutated and
exactly one character (the 8-bit accumulator value) is appended to the
output, in call order. -/
theorem C7_sta_absolute (c : CPU) (A : Nat) (hop : r8 c.m c.pc = 0x8D)
    (hA : r16 c.m (c.pc + 1) = some A) :
    step c = some (.next { w8 c A c.a with pc := (c.pc + 3) % 65536 }) ∧
    (w8 c A c.a).p = c.p ∧
    (w8 c A c.a).a = c.a ∧
    (A % 65536 = 0xC000 →
      (w8 c A c.a).m 0xC000 = c.m 0xC000 ∧
      (w8 c A c.a).out = c.out ++ [c.a % 256]) ∧
    (A % 65536 ≠ 0xC000 →
      (w8 c A c.a).out = c.out ∧
      (w8 c A c.a).m = Function.update c.m (A % 65536) (c.a % 256)) := by
  refine ⟨?_, ?_, ?_, ?_, ?_⟩
  · unfold step
    rw [hop]
    show (match r16 c.m (c.pc + 1) with
          | none => none
          | some addr =>
            some (Outcome.next { w8 c addr c.a with pc := (c.pc + 3) % 65536 })) =
        some (Outcome.next { w8 c A c.a with pc := (c.pc + 3) % 65536 })
    rw [hA]
  · unfold w8
    split <;> rfl
  · unfold w8
    split <;> rfl
  · intro h
    unfold w8
    rw [if_pos h]
    exact ⟨rfl, rfl⟩
  · intro h
    unfold w8
    rw [if_neg h]
    exact ⟨rfl, rfl⟩

/-- Concrete state executing STA 0xC000 with a = 0x41. -/
def cSTA : CPU :=
  { pc := 0, a := 0x41, x := 0, y := 0, s := 0, p := 0,
    m := fun addr =>
      if addr = 0 then 0x8D else if addr = 1 then 0x00 else if addr = 2 then 0xC0 else 0,
    out := [] }

theorem C7_sta_absolute_witness :
    step cSTA = some (.next { w8 cSTA 0xC000 cSTA.a with pc := (cSTA.pc + 3) % 65536 }) ∧
    (w8 cSTA 0xC000 cSTA.a).p = cSTA.p ∧
    (w8 cSTA 0xC000 cSTA.a).a = cSTA.a ∧
    (0xC000 % 65536 = 0xC000 →
      (w8 cSTA 0xC000 cSTA.a).m 0xC000 = cSTA.m 0xC000 ∧
      (w8 cSTA 0xC000 cSTA.a).out = cSTA.out ++ [cSTA.a % 256]) ∧
    (0xC000 % 65536 ≠ 0xC000 →
      (w8 cSTA 0xC000 cSTA.a).out = cSTA.out ∧
      (w8 cSTA 0xC000 cSTA.a).m = Function.update cSTA.m (0xC000 % 65536) (cSTA.a % 256)) :=
  C7_sta_absolute cSTA 0xC000 rfl rfl

/-- C9: any opcode outside the supported set {0x00, 0xEA, 0x18, 0xA9,
0x8D, 0x69, 0xC9, 0x90} makes the dispatcher report the failing opcode
together with the pc at which it was fetched and halt with exit code 1,
carrying the otherwise unchanged state. -/
theorem C9_illegal_opcode (c : CPU)
    (h0 : r8 c.m c.pc ≠ 0x00) (h1 : r8 c.m c.pc ≠ 0xEA)
    (h2 : r8 c.m c.pc ≠ 0x18) (h3 : r8 c.m c.pc ≠ 0xA9)
    (h4 : r8 c.m c.pc ≠ 0x8D) (h5 : r8 c.m c.pc ≠ 0x69)
    (h6 : r8 c.m c.pc ≠ 0xC9) (h7 : r8 c.m c.pc ≠ 0x90) :
    step c = some (.illegal (r8 c.m c.pc) c.pc c) ∧
    exitCodeOf (.illegal (r8 c.m c.pc) c.pc c) = some 1 := by
  refine ⟨?_, rfl⟩
  unfold step exec
  rw [if_neg h0, if_neg h1, if_neg h2, if_neg h3, if_neg h4, if_neg h5,
    if_neg h6, if_neg h7]

/-- Memory image consisting solely of opcode byte 0xFF at address 0. -/
def progFF : Nat → Nat := fun addr => if addr = 0 then 0xFF else 0

/-- The booted state of the 0xFF image: reset vector written, pc = 0. -/
def cFF : CPU :=
  { pc := 0, a := 0, x := 0, y := 0, s := 0, p := 0,
    m := Function.update (Function.update progFF 0xFFFC 0) 0xFFFD 0,
    out := [] }

theorem C9_illegal_opcode_witness :
    boot progFF = some cFF ∧
    step cFF = some (.illegal 0xFF 0x0000 cFF) ∧
    exitCodeOf (.illegal 0xFF 0x0000 cFF) = some 1 := by
  refine ⟨rfl, ?_, rfl⟩
  exact (C9_illegal_opcode cFF (by decide) (by decide) (by decide) (by decide)
    (by decide) (by decide) (by decide) (by decide)).1

/-- Lift of `w16` to the whole state: `w16` touches only the memory
array, never the output device. -/
def w16CPU (c : CPU) (addr val : Nat) : Option CPU :=
  (w16 c.m addr val).map (fun m2 => { c with m := m2 })

/-- Modelled from the spec's words for C3 (the code's `w16` does not do
this): the composition `write8(addr, low byte)` then
`write8(addr+1 mod 65536, high byte)`, each byte independently subject
to the 0xC000 interception. -/
def w16_via_w8 (c : CPU) (addr val : Nat) : CPU :=
  w8 (w8 c addr (val % 256)) ((addr + 1) % 65536) (val % 65536 / 256)

/-- All-zero initial state. -/
def cpu0 : CPU :=
  { pc := 0, a := 0, x := 0, y := 0, s := 0, p := 0, m := fun _ => 0, out := [] }

/-- C3 counterexample: writing the word 0x4142 to address 0xC000, the
code's `w16` stores the low byte 0x42 into memory at 0xC000 and emits no
output, while the claimed composition of two `w8` calls emits 0x42 to
the output device and leaves memory at 0xC000 untouched. -/
theorem C3_counterexample :
    (w16CPU cpu0 0xC000 0x4142).map (fun c => (c.out, c.m 0xC000)) =
      some (([] : List Nat), 0x42) ∧
    ((w16_via_w8 cpu0 0xC000 0x4142).out, (w16_via_w8 cpu0 0xC000 0x4142).m 0xC000) =
      ([0x42], 0) := by
  constructor
  · decide
  · decide

/-- C3 (amended): `w16` stores both bytes directly into memory, so it
agrees with the two-`w8` composition exactly when neither target address
is the output device 0xC000 and the high-byte store stays in bounds
(addr ≠ 0xFFFF); at 0xC000 it bypasses the interception (see the
counterexample), and at 0xFFFF it runs past the end of the array. -/
theorem C3_write16 (c : CPU) (addr val : Nat)
    (hlo : addr % 65536 ≠ 0xC000) (hhi : addr % 65536 + 1 ≠ 0xC000)
    (hb : addr % 65536 + 1 < 65536) :
    w16CPU c addr val = some (w16_via_w8 c addr val) := by
  have e1 : (addr + 1) % 65536 % 65536 = addr % 65536 + 1 := by omega
  have e2 : val % 256 % 256 = val % 256 := by omega
  have e3 : val % 65536 / 256 % 256 = val % 65536 / 256 := by omega
  unfold w16CPU w16 w16_via_w8 w8
  rw [if_pos hb, e1, if_neg hlo, if_neg hhi, e2, e3]
  rfl

theorem C3_write16_witness :
    0x1000 % 65536 ≠ 0xC000 ∧ 0x1000 % 65536 + 1 ≠ 0xC000 ∧
    0x1000 % 65536 + 1 < 65536 ∧
    w16CPU cpu0 0x1000 0xABCD = some (w16_via_w8 cpu0 0x1000 0xABCD) :=
  ⟨by decide, by decide, by decide,
    C3_write16 cpu0 0x1000 0xABCD (by decide) (by decide) (by decide)⟩

/-- States reachable from `c0` by a sequence of dispatcher steps that
keep the loop running. -/
inductive Reachable : CPU → CPU → Prop
  | refl (c : CPU) : Reachable c c
  | tail (c1 c2 c3 : CPU) : Reachable c1 c2 → step c2 = some (.next c3) →
      Reachable c1 c3

set_option maxRecDepth 4096 in
theorem invP_set_z : ∀ p < 256, p &&& 0x7C = 0 →
    set_z p < 256 ∧ set_z p &&& 0x7C = 0 := by decide

set_option maxRecDepth 4096 in
theorem invP_clr_z : ∀ p < 256, p &&& 0x7C = 0 →
    clr_z p < 256 ∧ clr_z p &&& 0x7C = 0 := by decide

set_option maxRecDepth 4096 in
theorem invP_set_n : ∀ p < 256, p &&& 0x7C = 0 →
    set_n p < 256 ∧ set_n p &&& 0x7C = 0 := by decide

set_option maxRecDepth 4096 in
theorem invP_clr_n : ∀ p < 256, p &&& 0x7C = 0 →
    clr_n p < 256 ∧ clr_n p &&& 0x7C = 0 := by decide

set_option maxRecDepth 4096 in
theorem invP_set_c : ∀ p < 256, p &&& 0x7C = 0 →
    set_c p < 256 ∧ set_c p &&& 0x7C = 0 := by decide

set_option maxRecDepth 4096 in
theorem invP_clr_c : ∀ p < 256, p &&& 0x7C = 0 →
    clr_c p < 256 ∧ clr_c p &&& 0x7C = 0 := by decide

theorem invP_updZN (p : Nat) (hp : p < 256) (hm : p &&& 0x7C = 0) (a : Nat) :
    updZN p a < 256 ∧ updZN p a &&& 0x7C = 0 := by
  unfold updZN updN updZ
  split_ifs
  · exact invP_set_n _ (invP_set_z p hp hm).1 (invP_set_z p hp hm).2
  · exact invP_set_n _ (invP_clr_z p hp hm).1 (invP_clr_z p hp hm).2
  · exact invP_clr_n _ (invP_set_z p hp hm).1 (invP_set_z p hp hm).2
  · exact invP_clr_n _ (invP_clr_z p hp hm).1 (invP_clr_z p hp hm).2

theorem invP_cmpFlags (p : Nat) (hp : p < 256) (hm : p &&& 0x7C = 0) (a v : Nat) :
    cmpFlags p a v < 256 ∧ cmpFlags p a v &&& 0x7C = 0 := by
  rcases Nat.lt_trichotomy a v with h | h | h
  · rw [cmpFlags_of_lt _ _ _ h]
    exact invP_clr_c _ (invP_clr_z p hp hm).1 (invP_clr_z p hp hm).2
  · rw [cmpFlags_of_eq _ _ _ h]
    exact invP_set_c _ (invP_set_z p hp hm).1 (invP_set_z p hp hm).2
  · rw [cmpFlags_of_gt _ _ _ h]
    exact invP_set_c _ (invP_clr_z p hp hm).1 (invP_clr_z p hp hm).2

set_option maxRecDepth 4096 in
theorem maskBits_of_inv : ∀ p < 256, p &&& 0x7C = 0 →
    p.testBit 2 = false ∧ p.testBit 3 = false ∧ p.testBit 4 = false ∧
    p.testBit 5 = false ∧ p.testBit 6 = false := by decide

theorem step_preserves_flags (c c2 : CPU) (h : step c = some (.next c2))
    (hp : c.p < 256 ∧ c.p &&& 0x7C = 0) : c2.p < 256 ∧ c2.p &&& 0x7C = 0 := by
  unfold step exec at h
  split_ifs at h
  · simp at h
  · simp only [Option.some.injEq, Outcome.next.injEq] at h
    subst h
    exact hp
  · simp only [Option.some.injEq, Outcome.next.injEq] at h
    subst h
    exact invP_clr_c c.p hp.1 hp.2
  · simp only [Option.some.injEq, Outcome.next.injEq] at h
    subst h
    exact invP_updZN c.p hp.1 hp.2 _
  · cases hr : r16 c.m (c.pc + 1) with
    | none =>
      rw [hr] at h
      simp at h
    | some addr =>
      rw [hr] at h
      simp only [Option.some.injEq, Outcome.next.injEq] at h
      subst h
      show (w8 c addr c.a).p < 256 ∧ (w8 c addr c.a).p &&& 0x7C = 0
      unfold w8
      split <;> exact hp
  · simp only [Option.some.injEq, Outcome.next.injEq] at h
    subst h
    exact invP_updZN c.p hp.1 hp.2 _
  · simp only [Option.some.injEq, Outcome.next.injEq] at h
    subst h
    exact invP_cmpFlags c.p hp.1 hp.2 _ _
  · simp only [Option.some.injEq, Outcome.next.injEq] at h
    subst h
    exact hp
  · simp only [Option.some.injEq, Outcome.next.injEq] at h
    subst h
    exact hp
  · simp at h

/-- C10: in every state reachable from an initial state whose flags
register is 0 by dispatcher steps, the InterruptDisable(2), Decimal(3),
Break(4), Unused(5) and Overflow(6) bits of the flags register are all
0 — no handler or flag helper ever sets a bit other than Carry(0),
Zero(1) and Negative(7). -/
theorem C10_flags_invariant (c0 c : CPU) (h0 : c0.p = 0)
    (hR : Reachable c0 c) :
    c.p.testBit 2 = false ∧ c.p.testBit 3 = false ∧ c.p.testBit 4 = false ∧
    c.p.testBit 5 = false ∧ c.p.testBit 6 = false := by
  have key : c.p < 256 ∧ c.p &&& 0x7C = 0 := by
    induction hR with
    | refl =>
      rw [h0]
      exact ⟨by decide, by decide⟩
    | tail c2 c3 hR2 hs ih =>
      exact step_preserves_flags c2 c3 hs ih
  exact maskBits_of_inv c.p key.1 key.2

theorem C10_flags_invariant_witness :
    cpu0.p.testBit 2 = false ∧ cpu0.p.testBit 3 = false ∧
    cpu0.p.testBit 4 = false ∧ cpu0.p.testBit 5 = false ∧
    cpu0.p.testBit 6 = false :=
  C10_flags_invariant cpu0 cpu0 rfl (Reachable.refl cpu0)

end Emu
